import Mathlib

/-!
Verification of `deno-random-utils` (src/logger.ts): a shallow embedding of
the log writer/rotator (`writeLog`, `closeLogs`), the log facade
(`createNewLog` and the level methods), and the console window formatter
(`custom`), together with theorems settling the specification claims.

Modelling conventions:
* One `Log` instance is modelled; its `relativePath` is fixed, so an
  on-disk log file is identified by its date partition (the `YYYY-MM-DD`
  folder).  The filesystem is `FS := String → List String`: for each date
  partition, the ordered list of chunks written to that instance's file.
* Wall-clock time is passed explicitly: `date` is the current date
  partition string (`Day().format("YYYY-MM-DD")`) and `now` the current
  time in milliseconds.  `setTimeout(f, t)` at time `now` is modelled by
  storing the absolute fire time `now + t` in `logFileTimeout`.
* Fallible Deno filesystem calls (`Deno.mkdir`, `Deno.open`,
  `FsFile.write`) are driven by an environment `FsEnv` saying which calls
  succeed.  A JavaScript exception is modelled by returning `ok = false`
  together with the state at the throw point (mutations already performed
  persist, exactly as they do on the mutable `this` object).
-/

namespace Logger

/-- The filesystem, restricted to one instance's log file: for each date
partition, the list of chunks written (in order) to
`logs/<date>/<relativePath>`. -/
def FS : Type := String → List String

/-- Append one chunk to the file of partition `d`. -/
def fsWrite (fs : FS) (d : String) (chunk : String) : FS :=
  fun d' => if d' = d then fs d' ++ [chunk] else fs d'

/-- The per-instance configuration fields read by `writeLog`
(`this.fileTimeout`; `shouldConsoleLog`/`shouldSaveConsole` join later for
the facade). -/
structure LogConfig where
  fileTimeout : Nat
  deriving DecidableEq, Repr

/-- The mutable runtime fields of a `Log` instance that `writeLog` and
`closeLogs` touch:
`_logFile` (`some d` = a handle is open, targeting partition `d`, the
value of `_logFileDate` at the moment of `Deno.open`),
`_logFileTimeout` (absolute time at which the armed `setTimeout` fires),
`_logFileTaken`, `_logFileDate`, and `_logDataQueue`. -/
structure LogState where
  logFile : Option String
  logFileTimeout : Option Nat
  logFileTaken : Bool
  logFileDate : String
  logDataQueue : List String
  deriving DecidableEq, Repr

/-- The state of a freshly constructed instance: the constructor sets
`_logFileDate = Day().format(folderDateFormat)` and leaves handle, timer
and queue empty. -/
def initState (d : String) : LogState :=
  { logFile := none, logFileTimeout := none, logFileTaken := false,
    logFileDate := d, logDataQueue := [] }

/-- `closeLogs` (src/logger.ts lines 294-302): if `_logFile` is non-null,
close it, null it, clear a pending timeout.  Nothing else is touched — in
particular `_logFileDate` is left as it is. -/
def closeLogs (s : LogState) : LogState :=
  if s.logFile.isSome then
    { s with logFile := none, logFileTimeout := none }
  else s

/-- Which Deno filesystem calls succeed during one `writeLog` call:
`Deno.mkdir`, `Deno.open`, and the `i`-th `FsFile.write` of the drain
loop. -/
structure FsEnv where
  mkdirOk : Bool
  openOk : Bool
  writeOk : Nat → Bool

/-- The all-succeeding environment. -/
def envOk : FsEnv :=
  { mkdirOk := true, openOk := true, writeOk := fun _ => true }

/-- Result of one `writeLog` call: `ok = false` means the call threw (the
exception propagates to the caller); the state and filesystem reflect all
mutations performed up to the throw point. -/
structure WriteResult where
  ok : Bool
  state : LogState
  fs : FS

/-- The drain loop (lines 280-282): write each queued buffer, in order, to
the open handle (partition `d`).  On the first failing write the exception
propagates; buffers already written stay written. -/
def drainQueue (env : FsEnv) (d : String) (fs : FS) :
    List String → Nat → Bool × FS
  | [], _ => (true, fs)
  | b :: rest, i =>
    if env.writeOk i then drainQueue env d (fsWrite fs d b) rest (i + 1)
    else (false, fs)

/-- Lines 279-285: drain the queue through the handle of partition `d`;
on success clear the queue, reset `_logFileTaken`, and — when no timeout
is armed (`fileTimeout == 0` case) — close the handle immediately. -/
def finishWrite (env : FsEnv) (d : String) (s : LogState) (fs : FS) :
    WriteResult :=
  match drainQueue env d fs s.logDataQueue 0 with
  | (true, fs') =>
    let s' := { s with logDataQueue := [], logFileTaken := false }
    ⟨true, if s'.logFileTimeout.isNone then closeLogs s' else s', fs'⟩
  | (false, fs') => ⟨false, s, fs'⟩

/-- `writeLog` (src/logger.ts lines 253-286), called with the current
date partition `date` and current time `now`:
1. push `data` on `_logDataQueue`;
2. if `_logFileTaken`, return;
3. if no handle is open, or `_logFileDate ≠ date`: set `_logFileDate`,
   run `closeLogs`, `Deno.mkdir` the partition directory, `Deno.open` the
   file in append mode, and arm the close timer.  The source expression
   `this.fileTimeout ?? 0 > 0` parses as `this.fileTimeout ?? (0 > 0)`;
   since `fileTimeout` is a number this is `fileTimeout` itself, truthy
   exactly when it is non-zero, so the timer is armed iff
   `fileTimeout ≠ 0`;
4. drain the queue, clear it, and close at once if no timer is armed. -/
def writeLog (cfg : LogConfig) (env : FsEnv) (date : String) (now : Nat)
    (s : LogState) (fs : FS) (data : String) : WriteResult :=
  let s1 := { s with logDataQueue := s.logDataQueue ++ [data] }
  if s1.logFileTaken then ⟨true, s1, fs⟩
  else if s1.logFile.isNone ∨ s1.logFileDate ≠ date then
    let s2 := closeLogs { s1 with logFileDate := date }
    if ¬ env.mkdirOk then ⟨false, s2, fs⟩
    else if ¬ env.openOk then ⟨false, s2, fs⟩
    else
      let s3 := { s2 with
                  logFile := some date,
                  logFileTimeout :=
                    if cfg.fileTimeout ≠ 0 then some (now + cfg.fileTimeout)
                    else none }
      finishWrite env date s3 fs
  else
    finishWrite env (s1.logFile.getD s1.logFileDate) s1 fs

/-- Fold `writeLog` over a list of buffers, all submitted at partition
`date` with the all-succeeding environment (successive `append` calls on
one instance). -/
def writeAll (cfg : LogConfig) (date : String) (now : Nat)
    (s : LogState) (fs : FS) : List String → LogState × FS
  | [] => (s, fs)
  | b :: rest =>
    let r := writeLog cfg envOk date now s fs b
    writeAll cfg date now r.state r.fs rest

/-- The states of one `Log` instance reachable through its public
surface: construction, `append` (`writeLog`, under any environment, date,
time and data — a call that throws still leaves its partial mutations),
and `closeLogs` (called directly, by the armed timer, or by `close`). -/
inductive Reachable (cfg : LogConfig) : LogState → Prop
  | init (d : String) : Reachable cfg (initState d)
  | write {s : LogState} (env : FsEnv) (date : String) (now : Nat)
      (fs : FS) (data : String) (hs : Reachable cfg s) :
      Reachable cfg (writeLog cfg env date now s fs data).state
  | close {s : LogState} (hs : Reachable cfg s) :
      Reachable cfg (closeLogs s)

/-! ### String helpers

Executable counterparts of the JavaScript string operations the logger
uses (`String.prototype.includes`, `.replace`, `.split("\n")`), written
over `List Char` so that concrete instances reduce in the kernel. -/

/-- JS `hay.includes(pat)` on character lists. -/
def containsSub (hay pat : List Char) : Bool :=
  match hay with
  | [] => pat.isEmpty
  | _ :: rest => pat.isPrefixOf hay || containsSub rest pat

/-- JS `s.includes(pat)`. -/
def strContains (s pat : String) : Bool :=
  containsSub s.data pat.data

/-- JS `s.replace(pat, rep)`: replace the first occurrence of `pat`
(a plain string, not a regexp) by `rep`; `s` unchanged if absent. -/
def replaceFirstAux (pat rep : List Char) : List Char → List Char
  | [] => []
  | c :: rest =>
    if pat.isPrefixOf (c :: rest) then rep ++ (c :: rest).drop pat.length
    else c :: replaceFirstAux pat rep rest

/-- JS `s.replace(pat, rep)` on strings. -/
def replaceFirst (s pat rep : String) : String :=
  ⟨replaceFirstAux pat.data rep.data s.data⟩

/-- JS `s.split("\n")` on character lists. -/
def splitLinesAux : List Char → List Char → List (List Char)
  | [], acc => [acc.reverse]
  | c :: rest, acc =>
    if c = '\x0a' then acc.reverse :: splitLinesAux rest []
    else splitLinesAux rest (c :: acc)

/-- JS `s.split("\n")`. -/
def splitLines (s : String) : List String :=
  (splitLinesAux s.data []).map (fun l => ⟨l⟩)

/-- Number of newline characters in `s`; for a `\n`-terminated text this
is the number of lines written. -/
def countLines (s : String) : Nat :=
  (s.data.filter (fun c => c = '\x0a')).length

/-! ### Terminal colors and the message renderer of `custom` -/

/-- `terminalColor.foreground.red`. -/
def fgRed : String := "\x1b[31m"

/-- `terminalColor.foreground.white`. -/
def fgWhite : String := "\x1b[37m"

/-- `terminalColor.background.red`. -/
def bgRed : String := "\x1b[41m"

/-- `terminalColor.special.normal`. -/
def normalColor : String := "\x1b[0m"

/-- `colorString(string, prefixes, suffixes)` (lines 523-529): wrap a
string in escape sequences. -/
def colorString (s : String) (pre suf : List String) : String :=
  String.join pre ++ s ++ String.join suf

/-- The log levels (keys of the `output` object); arguments of
`createNewLog`'s `type` parameter. -/
inductive Level
  | debug
  | info
  | warn
  | error
  deriving DecidableEq, Repr

/-- JS `type.toUpperCase()`. -/
def Level.upper : Level → String
  | .debug => "DEBUG"
  | .info => "INFO"
  | .warn => "WARN"
  | .error => "ERROR"

/-- A JavaScript value arriving at the `MessageLog`-typed public
interface (`message: string | Record | Error | number | Array | any`).
Results of the runtime's external conversions are carried as data:
* `vNum shown`: a number and its decimal rendering (`toString`, total);
* `vErr stack shown`: a direct `Error` instance, its `.stack` (absent
  when undefined) and its string conversion (`none` when throwing);
* `vPlainObj inspected shown`: a plain object (`constructor === Object`),
  its `Deno.inspect(·, depth 5)` rendering, and its string conversion
  (`none` for an overriding `toString` that throws);
* `vArr inspected shown`: likewise for an array;
* `vOther shown`: any other defined, non-null value (class instance,
  symbol-free exotic object, ...), with `shown = none` when it has no
  callable `toString` — e.g. `Object.create(null)` — so that string
  conversion throws a `TypeError`. -/
inductive JSValue
  | vStr (s : String)
  | vNum (shown : String)
  | vNull
  | vUndefined
  | vErr (stack : Option String) (shown : Option String)
  | vPlainObj (inspected : String) (shown : Option String)
  | vArr (inspected : String) (shown : Option String)
  | vOther (shown : Option String)
  deriving DecidableEq, Repr

/-- A JavaScript exception, as distinguished by the facade's error
reporting: a `TypeError` from a string conversion, or an I/O error out of
`Deno.mkdir` / `Deno.open` / `FsFile.write`. -/
inductive JsErr
  | typeErr
  | ioErr
  deriving DecidableEq, Repr

/-- The `Error`-branch of `custom` (lines 400-419): split the stack into
lines, mark line 0 and every line mentioning `<rootFolder>/src` or
`<rootFolder>/dist` with a red background, color every line red, and
re-join.  Total. -/
def renderErrorStack (rootFolder : String) (stack : String) : String :=
  let lines := splitLines stack
  let marked := lines.enum.map (fun p =>
    if p.1 = 0 ∨ strContains p.2 (rootFolder ++ "/src")
        ∨ strContains p.2 (rootFolder ++ "/dist") then
      colorString p.2 [bgRed, fgWhite] [normalColor]
    else p.2)
  String.intercalate "\n" (marked.map (fun m => colorString m [fgRed] [normalColor]))

/-- The message rendering of `custom` (lines 399-424).  An `Error`
instance is expanded through its stack (and is then a string, so the
subsequent analysis returns it unchanged); then
`isObject(message) || Array.isArray(message)` selects `Deno.inspect`,
`undefined` renders as `"undefined"`, `null` as `"null"`, and anything
else goes through `message.toString()` — which throws a `TypeError`
(`Except.error`) when the value has no callable `toString`. -/
def renderMessage (rootFolder : String) : JSValue → Except JsErr String
  | .vErr stack _ => .ok (renderErrorStack rootFolder (stack.getD ""))
  | .vPlainObj inspected _ => .ok inspected
  | .vArr inspected _ => .ok inspected
  | .vUndefined => .ok "undefined"
  | .vNull => .ok "null"
  | .vStr s => .ok s
  | .vNum shown => .ok shown
  | .vOther (some t) => .ok t
  | .vOther none => .error JsErr.typeErr

/-- JS template-literal conversion `` `${content}` `` (line 340): the
abstract `String(content)` of the value, throwing when its `toString`
does. -/
def jsToString : JSValue → Except JsErr String
  | .vStr s => .ok s
  | .vNum shown => .ok shown
  | .vNull => .ok "null"
  | .vUndefined => .ok "undefined"
  | .vErr _ shown => shown.elim (.error JsErr.typeErr) .ok
  | .vPlainObj _ shown => shown.elim (.error JsErr.typeErr) .ok
  | .vArr _ shown => shown.elim (.error JsErr.typeErr) .ok
  | .vOther shown => shown.elim (.error JsErr.typeErr) .ok

/-- Lines 318-321: `content?.replace && args.forEach(v => content =
content.replace("%s", v))` — only a string has `.replace`, so
substitution happens exactly for string messages, replacing the first
`"%s"` occurrence per argument, left to right. -/
def substArgs (message : JSValue) (args : List String) : JSValue :=
  match message with
  | .vStr s => .vStr (args.foldl (fun acc v => replaceFirst acc "%s" v) s)
  | m => m

/-! ### The console window formatter -/

/-- The `relativePath` parameter of `custom`: `undefined` (static level
methods with `usePrevLog = false`), the continuation sentinel `true`
(`usePrevLog || undefined`), or a window label string. -/
inductive RelParam
  | undef
  | cont
  | path (s : String)
  deriving DecidableEq, Repr

/-- One console emission of the window logic: the footer line, a header
line carrying the label, or the main message print — `withBar = true`
when the `middlePrefix` continuation bar is prepended. -/
inductive WEvt
  | footer
  | header (s : String)
  | print (withBar : Bool)
  | valuesDump
  deriving DecidableEq, Repr

/-- JS `relativePathBeingDisplayed === relativePath`: a strict comparison
of the state string with the union-typed parameter, true only when the
parameter is that very string. -/
def rpEq (st : String) : RelParam → Bool
  | .path s => st = s
  | _ => false

/-- The window logic of `custom` (lines 456-479), from state
`st = relativePathBeingDisplayed`: either the call continues the current
window (prefix bar, state untouched), or the current window (if any) is
footed and cleared and — for a truthy string label — a header opens the
new window.  Returns the new state and the console emissions in order. -/
def windowStep (st : String) (rp : RelParam) : String × List WEvt :=
  if (rp = RelParam.cont ∧ 0 < st.length) ∨ rpEq st rp then
    (st, [WEvt.print true])
  else
    let fE : List WEvt := if 0 < st.length then [WEvt.footer] else []
    let st1 := if 0 < st.length then "" else st
    match rp with
    | RelParam.path s =>
      if 0 < s.length then (s, fE ++ [WEvt.header s, WEvt.print true])
      else (st1, fE ++ [WEvt.print false])
    | _ => (st1, fE ++ [WEvt.print false])

/-- Claim C9's description of the window logic, written from the spec's
words: if the continuation flag is set and a window is open, or the
currently open window's label equals the given label, print with a
continuation prefix and leave the state unchanged; otherwise foot and
clear an open window, and open a header for a non-empty, non-sentinel
label. -/
def claimWindow (st : String) (rp : RelParam) : String × List WEvt :=
  if (rp = RelParam.cont ∧ st ≠ "") ∨ rp = RelParam.path st then
    (st, [WEvt.print true])
  else
    let closing : List WEvt := if st ≠ "" then [WEvt.footer] else []
    match rp with
    | RelParam.path s =>
      if s ≠ "" then (s, closing ++ [WEvt.header s, WEvt.print true])
      else ("", closing ++ [WEvt.print false])
    | _ => ("", closing ++ [WEvt.print false])

/-- The full `custom` call as the facade uses it: render the message
(which can throw before any window mutation), then run the window logic
and print.  The cosmetic escape-sequence rewriting (lines 425-454) is a
total string transformation of the rendered message and does not affect
window state or line structure. -/
def custom (rootFolder : String) (wst : String) (message : JSValue)
    (rp : RelParam) : Except JsErr (String × List WEvt) :=
  match renderMessage rootFolder message with
  | .error e => .error e
  | .ok _rendered => .ok (windowStep wst rp)

/-! ### The log facade (`createNewLog`) -/

/-- The instance options read by a level-method call. -/
structure FacadeConfig where
  shouldConsoleLog : Bool
  shouldSaveConsole : Bool
  fileTimeout : Nat
  relPath : String
  deriving DecidableEq, Repr

/-- The call-time environment: filesystem behavior, `Deno.cwd()`, the
stack-derived caller tag `getFileCode(...)` (total: it catches its own
failures and returns `"[unknown]"`), the formatted timestamp and date
partition of `Day()`, the current time, and
`Deno.inspect(this._values, {colors: true})` at call time. -/
structure CallEnv where
  fsEnv : FsEnv
  rootFolder : String
  fileTag : String
  timestamp : String
  date : String
  now : Nat
  valuesInspect : String

/-- The mutable state a facade call touches: the writer state, the
filesystem, the process-wide window label, and the console output
(informational sink) accumulated so far. -/
structure FacadeState where
  log : LogState
  fs : FS
  wst : String
  console : List WEvt

/-- Outcome of the `try`-body of `createNewLog`: `err = some e` when the
body threw `e`; `st` reflects all mutations performed up to that point. -/
structure BodyOut where
  err : Option JsErr
  st : FacadeState

/-- Line 339-343: the text handed to the writer,
`[timestamp] [LEVEL] [caller-tag] content\n`, with a second line
`[timestamp] ↦ <inspected values>\n` appended for the `error` level. -/
def buildLogText (timestamp : String) (lv : Level)
    (fileTag content valuesInspect : String) : String :=
  "[" ++ timestamp ++ "] [" ++ lv.upper ++ "] " ++ fileTag ++ " " ++ content
    ++ "\n"
    ++ (if lv = Level.error then
          "[" ++ timestamp ++ "] ↦ " ++ valuesInspect ++ "\n"
        else "")

/-- The `try`-body of `createNewLog` (lines 312-346): substitute `%s`
arguments, print through `custom` (plus the `valuesLog` dump on `error`)
when `shouldConsoleLog`, then build the file text and hand it to
`writeLog` when `shouldSaveConsole`.  Any throw stops the body there,
with mutations kept. -/
def createNewLogBody (cfg : FacadeConfig) (env : CallEnv) (lv : Level)
    (message : JSValue) (args : List String) (st : FacadeState) : BodyOut :=
  let content := substArgs message args
  let afterConsole : BodyOut :=
    if cfg.shouldConsoleLog then
      match custom env.rootFolder st.wst content (RelParam.path cfg.relPath) with
      | .error e => ⟨some e, st⟩
      | .ok (w', evts) =>
        ⟨none, { st with
                 wst := w',
                 console := st.console ++ evts
                   ++ (if lv = Level.error then [WEvt.valuesDump] else []) }⟩
    else ⟨none, st⟩
  match afterConsole with
  | ⟨some e, st'⟩ => ⟨some e, st'⟩
  | ⟨none, st'⟩ =>
    if cfg.shouldSaveConsole then
      match jsToString content with
      | .error e => ⟨some e, st'⟩
      | .ok contentStr =>
        let text := buildLogText env.timestamp lv env.fileTag contentStr
          env.valuesInspect
        let r := writeLog ⟨cfg.fileTimeout⟩ env.fsEnv env.date env.now
          st'.log st'.fs text
        ⟨if r.ok then none else some JsErr.ioErr,
         { st' with log := r.state, fs := r.fs }⟩
    else ⟨none, st'⟩

/-- Result of a level-method call: the resolved value (`none` models
`null`), the final state, and the `console.error` sink fed by the `catch`
clause. -/
structure CNLResult where
  ret : Option String
  st : FacadeState
  errSink : List JsErr

/-- `createNewLog` (lines 305-351): run the body inside `try`; a thrown
error is caught and passed to `console.error`; the function then
`return null` in every case.  The instance methods `debug`, `info`,
`warn` and `error` are `createNewLog` at the four levels. -/
def createNewLog (cfg : FacadeConfig) (env : CallEnv) (lv : Level)
    (message : JSValue) (args : List String) (st : FacadeState) :
    CNLResult :=
  match createNewLogBody cfg env lv message args st with
  | ⟨none, st'⟩ => ⟨none, st', []⟩
  | ⟨some e, st'⟩ => ⟨none, st', [e]⟩

/-! ### Helper lemmas -/

theorem strPos_iff (s : String) : 0 < s.length ↔ s ≠ "" := by
  constructor
  · intro h he
    rw [he] at h
    exact absurd h (by decide)
  · intro h
    cases s with
    | mk data =>
      cases data with
      | nil => exact absurd (show (String.mk [] : String) = "" by decide) h
      | cons c cs => exact Nat.succ_pos _

theorem closeLogs_noop (s : LogState) (h : s.logFile = none) :
    closeLogs s = s := by
  unfold closeLogs
  rw [h]
  simp

theorem closeLogs_open (s : LogState) (d0 : String) (h : s.logFile = some d0) :
    closeLogs s = { s with logFile := none, logFileTimeout := none } := by
  unfold closeLogs
  rw [h]
  simp

theorem closeLogs_logFileDate (s : LogState) :
    (closeLogs s).logFileDate = s.logFileDate := by
  unfold closeLogs; split <;> rfl

theorem closeLogs_logDataQueue (s : LogState) :
    (closeLogs s).logDataQueue = s.logDataQueue := by
  unfold closeLogs; split <;> rfl

theorem closeLogs_logFileTaken (s : LogState) :
    (closeLogs s).logFileTaken = s.logFileTaken := by
  unfold closeLogs; split <;> rfl

theorem closeLogs_logFile_cases (s : LogState) :
    (closeLogs s).logFile = none ∨ closeLogs s = s := by
  unfold closeLogs; split
  · exact Or.inl rfl
  · exact Or.inr rfl

theorem envOk_mkdirOk : envOk.mkdirOk = true := rfl

theorem envOk_openOk : envOk.openOk = true := rfl

theorem drainQueue_envOk (d : String) (q : List String) :
    ∀ (fs : FS) (i : Nat),
      drainQueue envOk d fs q i =
        (true, fun d' => if d' = d then fs d' ++ q else fs d') := by
  induction q with
  | nil =>
    intro fs i
    unfold drainQueue
    congr 1
    funext d'
    by_cases h : d' = d <;> simp [h]
  | cons b rest ih =>
    intro fs i
    rw [show drainQueue envOk d fs (b :: rest) i
        = drainQueue envOk d (fsWrite fs d b) rest (i + 1) from rfl,
      ih (fsWrite fs d b) (i + 1)]
    congr 1
    funext d'
    by_cases h : d' = d <;> simp [fsWrite, h]

theorem finishWrite_envOk (d : String) (s : LogState) (fs : FS) :
    finishWrite envOk d s fs =
      ⟨true,
       (if s.logFileTimeout.isNone then
          closeLogs { s with logDataQueue := [], logFileTaken := false }
        else { s with logDataQueue := [], logFileTaken := false }),
       fun d' => if d' = d then fs d' ++ s.logDataQueue else fs d'⟩ := by
  unfold finishWrite
  rw [drainQueue_envOk]

theorem writeLog_closed (cfg : LogConfig) (d0 d : String) (now : Nat)
    (fs : FS) (b : String) :
    writeLog cfg envOk d now (initState d0) fs b =
      ⟨true,
       (if cfg.fileTimeout ≠ 0 then
          ⟨some d, some (now + cfg.fileTimeout), false, d, []⟩
        else initState d),
       fsWrite fs d b⟩ := by
  by_cases hft : cfg.fileTimeout = 0 <;>
    simp [writeLog, initState, closeLogs, envOk, finishWrite_envOk, fsWrite,
      hft] <;>
    rfl

theorem writeAll_closed (cfg : LogConfig) (h0 : cfg.fileTimeout = 0)
    (d : String) (now : Nat) :
    ∀ (bufs : List String) (fs : FS),
      writeAll cfg d now (initState d) fs bufs =
        (initState d, fun d' => if d' = d then fs d' ++ bufs else fs d') := by
  intro bufs
  induction bufs with
  | nil =>
    intro fs
    unfold writeAll
    congr 1
    funext d'
    by_cases h : d' = d <;> simp [h]
  | cons b rest ih =>
    intro fs
    unfold writeAll
    rw [writeLog_closed]
    simp only [h0, ne_eq, not_true_eq_false, if_false]
    rw [ih (fsWrite fs d b)]
    congr 1
    funext d'
    by_cases h : d' = d <;> simp [fsWrite, h]

/-! ### Claim C4 -/

/-- C4 counterexample: `closeLogs` on a state with an open handle does
not clear the date marker — `_logFileDate` keeps its value
`"2026-10-12"` (in particular it is not reset to the empty string, and
no assignment to it appears in `closeLogs` at all). -/
theorem spec_C4_counterexample :
    (closeLogs ⟨some "2026-10-12", some 5000, false, "2026-10-12", []⟩).logFileDate
        = "2026-10-12"
      ∧ "2026-10-12" ≠ "" := by
  exact ⟨rfl, by decide⟩

/-- C4 (amended): `closeLogs` is idempotent; with an open handle it
closes it and cancels any pending idle-close timer; with no open handle
it is a no-op; and in every case it leaves the date marker
`_logFileDate` unchanged (it does not clear it). -/
theorem spec_C4_amended :
    (∀ s : LogState, closeLogs (closeLogs s) = closeLogs s)
      ∧ (∀ s : LogState, s.logFile = none → closeLogs s = s)
      ∧ (∀ (s : LogState) (d0 : String), s.logFile = some d0 →
          (closeLogs s).logFile = none ∧ (closeLogs s).logFileTimeout = none)
      ∧ (∀ s : LogState, (closeLogs s).logFileDate = s.logFileDate) := by
  refine ⟨?_, closeLogs_noop, ?_, closeLogs_logFileDate⟩
  · intro s
    rcases hf : s.logFile with _ | d0
    · rw [closeLogs_noop s hf, closeLogs_noop s hf]
    · rw [closeLogs_open s d0 hf]
      exact closeLogs_noop _ rfl
  · intro s d0 h
    rw [closeLogs_open s d0 h]
    exact ⟨rfl, rfl⟩

/-- Witness for C4 (amended) at a concrete open-handle state. -/
theorem spec_C4_amended_witness :
    (closeLogs ⟨some "d", some 7, false, "d", []⟩).logFile = none
      ∧ (closeLogs ⟨some "d", some 7, false, "d", []⟩).logFileTimeout = none :=
  spec_C4_amended.2.2.1 ⟨some "d", some 7, false, "d", []⟩ "d" rfl

/-! ### Claim C9 -/

/-- C9: the window logic of `custom` coincides, on every state and every
`relativePath` argument, with the claim's description `claimWindow`:
continuation (flag set with a window open, or matching label) prints with
the continuation prefix and leaves the state alone; otherwise an open
window is footed and cleared, and a non-empty non-sentinel label opens a
new header window. -/
theorem spec_C9 (st : String) (rp : RelParam) :
    windowStep st rp = claimWindow st rp := by
  cases rp with
  | undef =>
    by_cases h : st = "" <;>
      simp [windowStep, claimWindow, rpEq, h, strPos_iff]
  | cont =>
    by_cases h : st = "" <;>
      simp [windowStep, claimWindow, rpEq, h, strPos_iff]
  | path s =>
    by_cases hst : st = s
    · simp [windowStep, claimWindow, rpEq, hst]
    · have hst' : ¬ s = st := fun h => hst h.symm
      by_cases hs : s = "" <;> by_cases h : st = "" <;>
        simp_all [windowStep, claimWindow, rpEq, strPos_iff]

/-! ### Claim C10 -/

/-- C10 counterexample: a defined, non-null message value with no
callable `toString` — concretely `Object.create(null)`, which is neither
a plain object (`constructor === Object` is false: it has no
`constructor`) nor an array — falls into the `message.toString()` branch
of `custom`'s case analysis and throws a `TypeError`, so the rendering is
not total over all message values. -/
theorem spec_C10_counterexample :
    renderMessage "/app" (JSValue.vOther none) = Except.error JsErr.typeErr :=
  rfl

/-- C10 (amended): the message rendering of `custom` is total on `null`
(rendered `"null"`), `undefined` (rendered `"undefined"`), plain objects
and arrays (their depth-bounded inspection), strings and numbers,
`Error` instances (their rendered stack), and every other value whose
`toString` is callable (its string conversion); only a value with no
callable `toString` (such as a null-prototype object) makes the case
analysis throw. -/
theorem spec_C10_amended :
    (∀ rf : String, renderMessage rf JSValue.vNull = Except.ok "null")
      ∧ (∀ rf : String, renderMessage rf JSValue.vUndefined = Except.ok "undefined")
      ∧ (∀ (rf i : String) (sh : Option String),
          renderMessage rf (JSValue.vPlainObj i sh) = Except.ok i)
      ∧ (∀ (rf i : String) (sh : Option String),
          renderMessage rf (JSValue.vArr i sh) = Except.ok i)
      ∧ (∀ rf s : String, renderMessage rf (JSValue.vStr s) = Except.ok s)
      ∧ (∀ rf n : String, renderMessage rf (JSValue.vNum n) = Except.ok n)
      ∧ (∀ rf t : String, renderMessage rf (JSValue.vOther (some t)) = Except.ok t)
      ∧ (∀ (rf : String) (stk sh : Option String),
          renderMessage rf (JSValue.vErr stk sh)
            = Except.ok (renderErrorStack rf (stk.getD ""))) :=
  ⟨fun _ => rfl, fun _ => rfl, fun _ _ _ => rfl, fun _ _ _ => rfl,
   fun _ _ => rfl, fun _ _ => rfl, fun _ _ => rfl, fun _ _ _ => rfl⟩

/-! ### Claim C1 -/

/-- C1: on an instance constructed with `fileTimeout = 0`, after any
sequence of `append` (`writeLog`) calls the file of the written partition
contains every submitted encoded line in submission order, and between
calls no handle is open, no timer is armed, and the queue is drained
(this holds after each call since the statement quantifies over every
prefix `bufs` of the submission sequence). -/
theorem spec_C1 (cfg : LogConfig) (h0 : cfg.fileTimeout = 0)
    (d0 d : String) (now : Nat) (fs : FS) (bufs : List String) :
    (writeAll cfg d now (initState d0) fs bufs).2 d = fs d ++ bufs
      ∧ (writeAll cfg d now (initState d0) fs bufs).1.logFile = none
      ∧ (writeAll cfg d now (initState d0) fs bufs).1.logFileTimeout = none
      ∧ (writeAll cfg d now (initState d0) fs bufs).1.logDataQueue = [] := by
  cases bufs with
  | nil => simp [writeAll, initState]
  | cons b rest =>
    rw [show writeAll cfg d now (initState d0) fs (b :: rest)
        = writeAll cfg d now
            (writeLog cfg envOk d now (initState d0) fs b).state
            (writeLog cfg envOk d now (initState d0) fs b).fs rest from rfl,
      writeLog_closed]
    simp only [h0, ne_eq, not_true_eq_false, if_false]
    rw [writeAll_closed cfg h0 d now rest (fsWrite fs d b)]
    refine ⟨?_, rfl, rfl, rfl⟩
    simp [fsWrite]

/-- Witness for C1 at a two-append run. -/
theorem spec_C1_witness :
    (writeAll ⟨0⟩ "d" 7 (initState "c") (fun _ => []) ["a", "b"]).2 "d"
        = ["a", "b"]
      ∧ (writeAll ⟨0⟩ "d" 7 (initState "c") (fun _ => [])
          ["a", "b"]).1.logFile = none
      ∧ (writeAll ⟨0⟩ "d" 7 (initState "c") (fun _ => [])
          ["a", "b"]).1.logFileTimeout = none
      ∧ (writeAll ⟨0⟩ "d" 7 (initState "c") (fun _ => [])
          ["a", "b"]).1.logDataQueue = [] :=
  spec_C1 ⟨0⟩ rfl "c" "d" 7 (fun _ => []) ["a", "b"]

/-! ### Claim C2 -/

/-- C2 counterexample: with `fileTimeout = 100`, a first append at time 0
opens the handle and arms the timer to fire at 100; a second append at
time 50 (before the timeout) does **not** reschedule it: the timer is
still `some 100`, not `some (50 + 100)` as a per-append debounce would
require — the timer is armed only in the (re)open branch of `writeLog`. -/
theorem spec_C2_counterexample :
    (writeLog ⟨100⟩ envOk "d" 50
        (writeLog ⟨100⟩ envOk "d" 0 (initState "c") (fun _ => []) "a").state
        (writeLog ⟨100⟩ envOk "d" 0 (initState "c") (fun _ => []) "a").fs
        "b").state.logFileTimeout = some 100
      ∧ ¬ (writeLog ⟨100⟩ envOk "d" 50
        (writeLog ⟨100⟩ envOk "d" 0 (initState "c") (fun _ => []) "a").state
        (writeLog ⟨100⟩ envOk "d" 0 (initState "c") (fun _ => []) "a").fs
        "b").state.logFileTimeout = some (50 + 100) := by
  have h1 : (writeLog ⟨100⟩ envOk "d" 50
      (writeLog ⟨100⟩ envOk "d" 0 (initState "c") (fun _ => []) "a").state
      (writeLog ⟨100⟩ envOk "d" 0 (initState "c") (fun _ => []) "a").fs
      "b").state.logFileTimeout = some 100 := rfl
  refine ⟨h1, fun h => ?_⟩
  rw [h1] at h
  exact absurd (Option.some.inj h) (by decide)

/-- C2 (amended): the idle-close timer is armed only when the handle is
(re)opened.  An append that reuses an already-open, same-date handle
leaves the previously scheduled timer unchanged (no per-append debounce),
while the handle stays open and the queued data is appended through it;
and an append that opens the handle (with `fileTimeout > 0`) schedules
the timer to fire `fileTimeout` milliseconds after that append. -/
theorem spec_C2_amended (cfg : LogConfig) (hft : cfg.fileTimeout ≠ 0)
    (s : LogState) (d : String) (now : Nat) (fs : FS) (data : String)
    (htaken : s.logFileTaken = false) :
    (∀ tf : Nat, s.logFile = some d → s.logFileDate = d →
        s.logFileTimeout = some tf →
        (writeLog cfg envOk d now s fs data).state.logFile = some d
          ∧ (writeLog cfg envOk d now s fs data).state.logFileTimeout
              = some tf
          ∧ (writeLog cfg envOk d now s fs data).fs d
              = fs d ++ s.logDataQueue ++ [data])
      ∧ (s.logFile = none →
          (writeLog cfg envOk d now s fs data).state.logFile = some d
            ∧ (writeLog cfg envOk d now s fs data).state.logFileTimeout
                = some (now + cfg.fileTimeout)) := by
  constructor
  · intro tf hf hd htf
    simp [writeLog, htaken, hf, hd, htf, finishWrite_envOk, List.append_assoc]
  · intro hf
    simp [writeLog, htaken, hf, hft, closeLogs, finishWrite_envOk,
      envOk_mkdirOk, envOk_openOk]

/-- Witness for C2 (amended): a reuse step on an open same-date handle,
and an opening step from a closed state. -/
theorem spec_C2_amended_witness :
    ((writeLog ⟨100⟩ envOk "d" 50 ⟨some "d", some 100, false, "d", []⟩
          (fun _ => []) "b").state.logFile = some "d"
      ∧ (writeLog ⟨100⟩ envOk "d" 50 ⟨some "d", some 100, false, "d", []⟩
          (fun _ => []) "b").state.logFileTimeout = some 100
      ∧ (writeLog ⟨100⟩ envOk "d" 50 ⟨some "d", some 100, false, "d", []⟩
          (fun _ => []) "b").fs "d" = ["b"])
    ∧ ((writeLog ⟨100⟩ envOk "d" 0 (initState "c")
          (fun _ => []) "a").state.logFile = some "d"
      ∧ (writeLog ⟨100⟩ envOk "d" 0 (initState "c")
          (fun _ => []) "a").state.logFileTimeout = some 100) :=
  ⟨(spec_C2_amended ⟨100⟩ (by decide) ⟨some "d", some 100, false, "d", []⟩
      "d" 50 (fun _ => []) "b" rfl).1 100 rfl rfl rfl,
   (spec_C2_amended ⟨100⟩ (by decide) (initState "c")
      "d" 0 (fun _ => []) "a" rfl).2 rfl⟩

/-! ### Claim C8 -/

theorem finishWrite_queue (env : FsEnv) (d : String) (s : LogState)
    (fs : FS) :
    (finishWrite env d s fs).state.logDataQueue =
      if (finishWrite env d s fs).ok then [] else s.logDataQueue := by
  rcases hd : drainQueue env d fs s.logDataQueue 0 with ⟨ok, fs'⟩
  cases ok
  · simp [finishWrite, hd]
  · simp only [finishWrite, hd]
    split <;> simp [closeLogs_logDataQueue]

/-- C8: a directory-creation, open, or write failure during `append`
never drops unflushed entries — the pending queue is cleared exactly when
the whole drain succeeded, and on a throw it still holds every enqueued
buffer (the old queue plus the buffer of this call). -/
theorem spec_C8 (cfg : LogConfig) (env : FsEnv) (d : String) (now : Nat)
    (s : LogState) (fs : FS) (data : String)
    (htaken : s.logFileTaken = false) :
    (writeLog cfg env d now s fs data).state.logDataQueue =
      if (writeLog cfg env d now s fs data).ok then []
      else s.logDataQueue ++ [data] := by
  unfold writeLog
  simp only [htaken, Bool.false_eq_true, if_false]
  split
  · split
    · simp [closeLogs_logDataQueue]
    · split
      · simp [closeLogs_logDataQueue]
      · rw [finishWrite_queue]
        simp [closeLogs_logDataQueue]
  · rw [finishWrite_queue]

/-- Witness for C8 at a failing write (`writeOk` always false). -/
theorem spec_C8_witness :
    (writeLog ⟨0⟩ ⟨true, true, fun _ => false⟩ "d" 7 (initState "c")
        (fun _ => []) "a").state.logDataQueue = ["a"]
      ∧ (writeLog ⟨0⟩ ⟨true, true, fun _ => false⟩ "d" 7 (initState "c")
          (fun _ => []) "a").ok = false :=
  ⟨spec_C8 ⟨0⟩ ⟨true, true, fun _ => false⟩ "d" 7 (initState "c")
      (fun _ => []) "a" rfl,
   rfl⟩

/-! ### Claims C3 and C5: reachable-state invariants -/

theorem closeLogs_logFile (s : LogState) : (closeLogs s).logFile = none := by
  unfold closeLogs
  split
  · rfl
  · rename_i h
    simpa using h

theorem finishWrite_pres (env : FsEnv) (d : String) (s : LogState) (fs : FS)
    (hinv : ∀ d0, s.logFile = some d0 → s.logFileDate = d0)
    (htaken : s.logFileTaken = false) :
    (∀ d0, (finishWrite env d s fs).state.logFile = some d0 →
        (finishWrite env d s fs).state.logFileDate = d0)
      ∧ (finishWrite env d s fs).state.logFileTaken = false := by
  rcases hd : drainQueue env d fs s.logDataQueue 0 with ⟨ok, fs'⟩
  cases ok <;> simp only [finishWrite, hd]
  · exact ⟨fun d0 h => hinv d0 h, htaken⟩
  · constructor
    · split
      · intro d0 h
        rw [closeLogs_logFile] at h
        simp at h
      · exact fun d0 h => hinv d0 h
    · split
      · rw [closeLogs_logFileTaken]
      · rfl

theorem writeLog_pres (cfg : LogConfig) (env : FsEnv) (date : String)
    (now : Nat) (s : LogState) (fs : FS) (data : String)
    (hinv : ∀ d0, s.logFile = some d0 → s.logFileDate = d0)
    (htaken : s.logFileTaken = false) :
    (∀ d0, (writeLog cfg env date now s fs data).state.logFile = some d0 →
        (writeLog cfg env date now s fs data).state.logFileDate = d0)
      ∧ (writeLog cfg env date now s fs data).state.logFileTaken = false := by
  unfold writeLog
  simp only [htaken, Bool.false_eq_true, if_false]
  split
  · split
    · refine ⟨?_, ?_⟩
      · intro d0 h
        rw [closeLogs_logFile] at h
        simp at h
      · rw [closeLogs_logFileTaken]
    · split
      · refine ⟨?_, ?_⟩
        · intro d0 h
          rw [closeLogs_logFile] at h
          simp at h
        · rw [closeLogs_logFileTaken]
      · refine finishWrite_pres env date _ fs ?_ ?_
        · intro d0 h
          have hd : date = d0 := Option.some.inj h
          simp only [closeLogs_logFileDate]
          exact hd
        · simp only [closeLogs_logFileTaken]
  · exact finishWrite_pres env _ _ fs (fun d0 h => hinv d0 h) rfl

/-- Combined invariant of every reachable state: the open handle (if
any) targets the stored `_logFileDate` partition, and the in-flight
guard `_logFileTaken` is false. -/
theorem reachable_inv (cfg : LogConfig) (s : LogState)
    (h : Reachable cfg s) :
    (∀ d0, s.logFile = some d0 → s.logFileDate = d0)
      ∧ s.logFileTaken = false := by
  induction h with
  | init d =>
    refine ⟨?_, rfl⟩
    intro d0 h
    simp [initState] at h
  | write env date now fs data hs ih =>
    exact writeLog_pres cfg env date now _ fs data ih.1 ih.2
  | close hs ih =>
    refine ⟨?_, ?_⟩
    · intro d0 h
      rw [closeLogs_logFile] at h
      simp at h
    · rw [closeLogs_logFileTaken]
      exact ih.2

theorem writeLog_envOk_drained (cfg : LogConfig) (d : String) (now : Nat)
    (s : LogState) (fs : FS) (data : String)
    (htaken : s.logFileTaken = false) :
    (writeLog cfg envOk d now s fs data).state.logDataQueue = []
      ∧ (writeLog cfg envOk d now s fs data).ok = true := by
  unfold writeLog
  simp only [htaken, Bool.false_eq_true, if_false, envOk_mkdirOk,
    envOk_openOk, not_true, if_false]
  split
  · rw [finishWrite_envOk]
    constructor
    · split <;> simp [closeLogs_logDataQueue]
    · rfl
  · rw [finishWrite_envOk]
    constructor
    · split <;> simp [closeLogs_logDataQueue]
    · rfl

theorem closeLogs_update (x : LogState) (a : Option String)
    (b : Option Nat) :
    ({ closeLogs x with logFile := a, logFileTimeout := b } : LogState)
      = ⟨a, b, x.logFileTaken, x.logFileDate, x.logDataQueue⟩ := by
  unfold closeLogs
  split <;> rfl

/-- Computation of an `append` that takes the open/rotate branch
(no handle, or stored date differing from the current partition), under
the all-succeeding environment. -/
theorem writeLog_rotate (cfg : LogConfig) (s : LogState) (d : String)
    (now : Nat) (fs : FS) (data : String)
    (htaken : s.logFileTaken = false)
    (hrot : s.logFile.isNone = true ∨ s.logFileDate ≠ d) :
    writeLog cfg envOk d now s fs data =
      ⟨true,
       (if cfg.fileTimeout ≠ 0 then
          ⟨some d, some (now + cfg.fileTimeout), false, d, []⟩
        else ⟨none, none, false, d, []⟩),
       fun d' => if d' = d then fs d' ++ (s.logDataQueue ++ [data])
                 else fs d'⟩ := by
  unfold writeLog
  simp only [htaken, Bool.false_eq_true, if_false]
  rw [if_pos hrot, closeLogs_update]
  simp only [envOk_mkdirOk, envOk_openOk, not_true, if_false]
  rw [finishWrite_envOk]
  by_cases hft : cfg.fileTimeout = 0 <;>
    simp [hft, closeLogs]

/-- C3: in every reachable state at most one handle is open (the model's
`logFile` is a single optional handle) and it targets the partition
stored in `_logFileDate`, which was the current partition when the
handle was (re)opened; and an `append` issued after the wall-clock date
advanced (current partition `d` differs from the stored one) closes the
old handle, writes the whole queue into the new partition `d`, and never
writes into any other partition. -/
theorem spec_C3 :
    (∀ (cfg : LogConfig) (s : LogState), Reachable cfg s →
        ∀ d0, s.logFile = some d0 → s.logFileDate = d0)
      ∧ (∀ (cfg : LogConfig) (s : LogState) (d : String) (now : Nat)
            (fs : FS) (data : String),
          s.logFileTaken = false → s.logFileDate ≠ d →
          (writeLog cfg envOk d now s fs data).state.logFileDate = d
            ∧ ((writeLog cfg envOk d now s fs data).state.logFile = none
                ∨ (writeLog cfg envOk d now s fs data).state.logFile = some d)
            ∧ (∀ d', d' ≠ d →
                (writeLog cfg envOk d now s fs data).fs d' = fs d')
            ∧ (writeLog cfg envOk d now s fs data).fs d
                = fs d ++ s.logDataQueue ++ [data]) := by
  constructor
  · exact fun cfg s h => (reachable_inv cfg s h).1
  · intro cfg s d now fs data htaken hdate
    rw [writeLog_rotate cfg s d now fs data htaken (Or.inr hdate)]
    by_cases hft : cfg.fileTimeout = 0 <;>
      refine ⟨by simp [hft], by simp [hft], fun d' hd' => by simp [hd'],
        by simp [List.append_assoc]⟩

/-- Witness for C3: a reachable open-handle state respects the
handle-date correspondence, and a concrete date-rollover append flushes
into the new partition only. -/
theorem spec_C3_witness :
    (writeLog ⟨100⟩ envOk "d" 0 (initState "c") (fun _ => [])
        "a").state.logFileDate = "d"
      ∧ (writeLog ⟨100⟩ envOk "d2" 9 ⟨some "d1", some 5, false, "d1", []⟩
          (fun _ => []) "b").state.logFileDate = "d2"
      ∧ ((writeLog ⟨100⟩ envOk "d2" 9 ⟨some "d1", some 5, false, "d1", []⟩
            (fun _ => []) "b").state.logFile = none
          ∨ (writeLog ⟨100⟩ envOk "d2" 9 ⟨some "d1", some 5, false, "d1", []⟩
              (fun _ => []) "b").state.logFile = some "d2")
      ∧ (writeLog ⟨100⟩ envOk "d2" 9 ⟨some "d1", some 5, false, "d1", []⟩
          (fun _ => []) "b").fs "d1" = []
      ∧ (writeLog ⟨100⟩ envOk "d2" 9 ⟨some "d1", some 5, false, "d1", []⟩
          (fun _ => []) "b").fs "d2" = ["b"] := by
  refine ⟨spec_C3.1 ⟨100⟩ _
      (Reachable.write envOk "d" 0 (fun _ => []) "a"
        (Reachable.init "c")) "d" rfl, ?_, ?_, ?_, ?_⟩
  · exact (spec_C3.2 ⟨100⟩ ⟨some "d1", some 5, false, "d1", []⟩ "d2" 9
      (fun _ => []) "b" rfl (by decide)).1
  · exact (spec_C3.2 ⟨100⟩ ⟨some "d1", some 5, false, "d1", []⟩ "d2" 9
      (fun _ => []) "b" rfl (by decide)).2.1
  · exact (spec_C3.2 ⟨100⟩ ⟨some "d1", some 5, false, "d1", []⟩ "d2" 9
      (fun _ => []) "b" rfl (by decide)).2.2.1 "d1" (by decide)
  · exact (spec_C3.2 ⟨100⟩ ⟨some "d1", some 5, false, "d1", []⟩ "d2" 9
      (fun _ => []) "b" rfl (by decide)).2.2.2

/-- C5: the in-flight guard `_logFileTaken` is false in every reachable
state — it is initialized false and the only assignment in the source
sets it to false — so `writeLog`'s early-return branch never fires, and
every append on a reachable state proceeds to open/rotate and fully
drain the queue (an early return would have left the just-pushed buffer
enqueued). -/
theorem spec_C5 :
    (∀ (cfg : LogConfig) (s : LogState), Reachable cfg s →
        s.logFileTaken = false)
      ∧ (∀ (cfg : LogConfig) (s : LogState) (d : String) (now : Nat)
            (fs : FS) (data : String), Reachable cfg s →
          (writeLog cfg envOk d now s fs data).state.logDataQueue = []
            ∧ (writeLog cfg envOk d now s fs data).ok = true) := by
  constructor
  · exact fun cfg s h => (reachable_inv cfg s h).2
  · intro cfg s d now fs data h
    exact writeLog_envOk_drained cfg d now s fs data (reachable_inv cfg s h).2

/-- Witness for C5 at a freshly constructed instance and one append. -/
theorem spec_C5_witness :
    (initState "c").logFileTaken = false
      ∧ (writeLog ⟨0⟩ envOk "d" 7 (initState "c")
          (fun _ => []) "a").state.logDataQueue = []
      ∧ (writeLog ⟨0⟩ envOk "d" 7 (initState "c") (fun _ => []) "a").ok
          = true := by
  refine ⟨spec_C5.1 ⟨0⟩ _ (Reachable.init "c"), ?_, ?_⟩
  · exact (spec_C5.2 ⟨0⟩ _ "d" 7 (fun _ => []) "a" (Reachable.init "c")).1
  · exact (spec_C5.2 ⟨0⟩ _ "d" 7 (fun _ => []) "a" (Reachable.init "c")).2

/-! ### Claim C6 -/

/-- C6: every instance level method (`debug`/`info`/`warn`/`error`, all
of which run through `createNewLog`) never throws and always resolves to
the empty result `null` (`ret = none`), for every message, arguments,
configuration, state, and environment — including environments in which
formatting or file writing fails: a thrown error is caught by the
facade's `catch` and lands in the `console.error` sink instead of
propagating. -/
theorem spec_C6 (cfg : FacadeConfig) (env : CallEnv) (lv : Level)
    (message : JSValue) (args : List String) (st : FacadeState) :
    (createNewLog cfg env lv message args st).ret = none
      ∧ (∀ e, (createNewLogBody cfg env lv message args st).err = some e →
          (createNewLog cfg env lv message args st).errSink = [e])
      ∧ ((createNewLogBody cfg env lv message args st).err = none →
          (createNewLog cfg env lv message args st).errSink = []) := by
  rcases h : createNewLogBody cfg env lv message args st with ⟨err, st'⟩
  cases err <;> simp [createNewLog, h]

/-- Witness for C6 at a call in which the file write throws
(`writeOk` always false): the call still resolves to `null` and the
`ioErr` is reported to the error sink. -/
theorem spec_C6_witness :
    (createNewLog ⟨false, true, 0, "test.log"⟩
        ⟨⟨true, true, fun _ => false⟩, "/app", "[t.ts:1]", "1:02:03 PM",
          "2026-10-12", 0, "vals"⟩
        Level.info (JSValue.vStr "Hello") []
        ⟨initState "2026-10-12", fun _ => [], "", []⟩).ret = none
      ∧ (createNewLog ⟨false, true, 0, "test.log"⟩
          ⟨⟨true, true, fun _ => false⟩, "/app", "[t.ts:1]", "1:02:03 PM",
            "2026-10-12", 0, "vals"⟩
          Level.info (JSValue.vStr "Hello") []
          ⟨initState "2026-10-12", fun _ => [], "", []⟩).errSink
        = [JsErr.ioErr] := by
  refine ⟨(spec_C6 ⟨false, true, 0, "test.log"⟩
      ⟨⟨true, true, fun _ => false⟩, "/app", "[t.ts:1]", "1:02:03 PM",
        "2026-10-12", 0, "vals"⟩
      Level.info (JSValue.vStr "Hello") []
      ⟨initState "2026-10-12", fun _ => [], "", []⟩).1,
    (spec_C6 ⟨false, true, 0, "test.log"⟩
      ⟨⟨true, true, fun _ => false⟩, "/app", "[t.ts:1]", "1:02:03 PM",
        "2026-10-12", 0, "vals"⟩
      Level.info (JSValue.vStr "Hello") []
      ⟨initState "2026-10-12", fun _ => [], "", []⟩).2.1 JsErr.ioErr rfl⟩

/-! ### Claim C7 -/

theorem countLines_append (s t : String) :
    countLines (s ++ t) = countLines s + countLines t := by
  rcases s with ⟨ls⟩
  rcases t with ⟨lt⟩
  show countLines ⟨ls ++ lt⟩ = _
  simp [countLines, List.filter_append]

theorem str_eq_of_data {s t : String} (h : s.data = t.data) : s = t := by
  cases s
  cases t
  cases h
  rfl

theorem data_app (s t : String) : (s ++ t).data = s.data ++ t.data := by
  cases s
  cases t
  rfl

/-- C7 counterexample: an `error(...)` call whose message contains an
embedded newline (`"a\nb"`) writes a single chunk of **three**
`\n`-terminated lines, not exactly two as the claim states for every
call. -/
theorem spec_C7_counterexample :
    (createNewLog ⟨true, true, 0, "test.log"⟩
        ⟨envOk, "/app", "[t.ts:1]", "1:02:03 PM", "2026-10-12", 0, "vals"⟩
        Level.error (JSValue.vStr "a\nb") []
        ⟨initState "2026-10-12", fun _ => [], "", []⟩).st.fs "2026-10-12"
      = ["[1:02:03 PM] [ERROR] [t.ts:1] a\nb\n[1:02:03 PM] ↦ vals\n"]
      ∧ countLines "[1:02:03 PM] [ERROR] [t.ts:1] a\nb\n[1:02:03 PM] ↦ vals\n"
          = 3
      ∧ (3 : Nat) ≠ 2 := by
  refine ⟨rfl, by decide, by decide⟩

/-- An `append` on an idle writer state — guard false, pending queue
drained, and the open handle (if any) targeting the stored date, i.e.
the condition every reachable between-calls state satisfies — appends
exactly its buffer to the current partition's file, whether it reuses
the open handle (same date) or (re)opens one. -/
theorem writeLog_append (cfg : LogConfig) (s : LogState) (d : String)
    (now : Nat) (fs : FS) (data : String)
    (htaken : s.logFileTaken = false)
    (hq : s.logDataQueue = [])
    (hinv : ∀ d0, s.logFile = some d0 → s.logFileDate = d0) :
    (writeLog cfg envOk d now s fs data).fs d = fs d ++ [data] := by
  by_cases hrot : s.logFile.isNone = true ∨ s.logFileDate ≠ d
  · rw [writeLog_rotate cfg s d now fs data htaken hrot]
    simp [hq]
  · push_neg at hrot
    obtain ⟨hsome, hdate⟩ := hrot
    rcases hf : s.logFile with _ | d0
    · rw [hf] at hsome
      simp at hsome
    · have hd0 : d0 = d := by
        rw [← hdate]
        exact (hinv d0 hf).symm
      unfold writeLog
      simp only [htaken, Bool.false_eq_true, if_false]
      split
      · rename_i hcond
        rcases hcond with hh | hh
        · rw [hf] at hh
          simp at hh
        · exact absurd hdate hh
      · rw [finishWrite_envOk]
        simp [hf, hd0, hq]

/-- C7 (amended): when `shouldSaveConsole` is enabled and the message
(after `%s` substitution), timestamp, caller tag and inspected values
contain no newline character, an `error(...)` call issued while the
writer is idle (guard false, pending queue drained, any open handle
matching the stored date — the condition every reachable between-calls
state satisfies) appends exactly one chunk consisting of exactly two
lines: the message line `[h:mm:ss A] [ERROR] [caller-tag] message`
followed by the values-dump line `[h:mm:ss A] ↦ <inspected values>`;
this covers both a call reusing an open same-date handle and a call that
(re)opens the file (a message or values dump with embedded newlines
yields correspondingly more lines, as the counterexample shows). -/
theorem spec_C7_amended (cfg : FacadeConfig) (env : CallEnv)
    (m : String) (args : List String) (st : FacadeState)
    (hsave : cfg.shouldSaveConsole = true)
    (henv : env.fsEnv = envOk)
    (htaken : st.log.logFileTaken = false)
    (hq : st.log.logDataQueue = [])
    (hinv : ∀ d0, st.log.logFile = some d0 → st.log.logFileDate = d0)
    (hm : countLines (args.foldl (fun acc v => replaceFirst acc "%s" v) m)
        = 0)
    (hts : countLines env.timestamp = 0)
    (htag : countLines env.fileTag = 0)
    (hvals : countLines env.valuesInspect = 0) :
    (createNewLog cfg env Level.error (JSValue.vStr m) args st).st.fs
        env.date
        = st.fs env.date
          ++ [buildLogText env.timestamp Level.error env.fileTag
              (args.foldl (fun acc v => replaceFirst acc "%s" v) m)
              env.valuesInspect]
      ∧ countLines (buildLogText env.timestamp Level.error env.fileTag
          (args.foldl (fun acc v => replaceFirst acc "%s" v) m)
          env.valuesInspect) = 2
      ∧ buildLogText env.timestamp Level.error env.fileTag
            (args.foldl (fun acc v => replaceFirst acc "%s" v) m)
            env.valuesInspect
          = "[" ++ env.timestamp ++ "] [ERROR] " ++ env.fileTag ++ " "
            ++ (args.foldl (fun acc v => replaceFirst acc "%s" v) m)
            ++ "\n"
            ++ ("[" ++ env.timestamp ++ "] ↦ " ++ env.valuesInspect
                ++ "\n") := by
  have happ := writeLog_append ⟨cfg.fileTimeout⟩ st.log env.date env.now
    st.fs
    (buildLogText env.timestamp Level.error env.fileTag
      (args.foldl (fun acc v => replaceFirst acc "%s" v) m)
      env.valuesInspect)
    htaken hq hinv
  have hok := (writeLog_envOk_drained ⟨cfg.fileTimeout⟩ env.date env.now
    st.log st.fs
    (buildLogText env.timestamp Level.error env.fileTag
      (args.foldl (fun acc v => replaceFirst acc "%s" v) m)
      env.valuesInspect)
    htaken).2
  refine ⟨?_, ?_, ?_⟩
  · by_cases hc : cfg.shouldConsoleLog <;>
      simp [createNewLog, createNewLogBody, substArgs, custom,
        renderMessage, jsToString, hsave, henv, hc, hok, happ]
  · simp [buildLogText, countLines_append, hm, hts, htag, hvals,
      show countLines "[" = 0 from rfl,
      show countLines "] [" = 0 from rfl,
      show countLines "] " = 0 from rfl,
      show countLines " " = 0 from rfl,
      show countLines "\n" = 1 from rfl,
      show countLines "] ↦ " = 0 from rfl,
      show Level.error.upper = "ERROR" from rfl,
      show countLines "ERROR" = 0 from rfl]
  · apply str_eq_of_data
    simp [buildLogText, data_app, List.append_assoc,
      show Level.error.upper = "ERROR" from rfl,
      show "[".data = ['['] from rfl,
      show "] [".data = [']', ' ', '['] from rfl,
      show "ERROR".data = ['E', 'R', 'R', 'O', 'R'] from rfl,
      show "] ".data = [']', ' '] from rfl,
      show " ".data = [' '] from rfl,
      show "\n".data = ['\n'] from rfl,
      show "] ↦ ".data = [']', ' ', '↦', ' '] from rfl,
      show "] [ERROR] ".data
        = [']', ' ', '[', 'E', 'R', 'R', 'O', 'R', ']', ' '] from rfl]

/-- Witness for C7 (amended): a second `error` call with a `%s`
substitution argument, issued while the same-date handle opened by an
earlier call is still open under the default `fileTimeout = 5000`,
appends its two-line chunk after the earlier one. -/
theorem spec_C7_amended_witness :
    (createNewLog ⟨true, true, 5000, "test.log"⟩
        ⟨envOk, "/app", "[t.ts:1]", "1:02:03 PM", "2026-10-12", 60, "vals"⟩
        Level.error (JSValue.vStr "Hello %s") ["World"]
        ⟨⟨some "2026-10-12", some 5000, false, "2026-10-12", []⟩,
          fun _ => ["prior"], "", []⟩).st.fs "2026-10-12"
      = ["prior",
         buildLogText "1:02:03 PM" Level.error "[t.ts:1]" "Hello World"
           "vals"]
      ∧ countLines (buildLogText "1:02:03 PM" Level.error "[t.ts:1]"
          "Hello World" "vals") = 2
      ∧ buildLogText "1:02:03 PM" Level.error "[t.ts:1]" "Hello World"
            "vals"
          = "[" ++ "1:02:03 PM" ++ "] [ERROR] " ++ "[t.ts:1]" ++ " "
            ++ "Hello World" ++ "\n"
            ++ ("[" ++ "1:02:03 PM" ++ "] ↦ " ++ "vals" ++ "\n") := by
  have h := spec_C7_amended ⟨true, true, 5000, "test.log"⟩
    ⟨envOk, "/app", "[t.ts:1]", "1:02:03 PM", "2026-10-12", 60, "vals"⟩
    "Hello %s" ["World"]
    ⟨⟨some "2026-10-12", some 5000, false, "2026-10-12", []⟩,
      fun _ => ["prior"], "", []⟩
    rfl rfl rfl rfl (fun d0 hd => Option.some.inj hd) rfl rfl rfl rfl
  exact ⟨h.1, h.2.1, h.2.2⟩

end Logger
